import Mathlib

/-!
Verification development for the `darlinggo/site` webhook sync service
(`readmesync/main.go` and the companion `syncall/main.go` client).

Bytes are modelled as `Nat` (values < 256), 32-bit words as `Nat` reduced
modulo `2^32` at every arithmetic step, byte strings as `List Nat`.
The HMAC-SHA1 signature scheme used by `verifyWebhook` is implemented in
full (FIPS 180-1 SHA-1 plus RFC 2104 HMAC) so that verification claims are
settled against the real digest function rather than an abstraction.
-/

namespace Site

/-! ### 32-bit words, big-endian encoding -/

/-- Reduce to a 32-bit word, as Go's `uint32` arithmetic does implicitly. -/
def w32 (n : Nat) : Nat := n % 4294967296

/-- Rotate a 32-bit word left by `n` bits (callers pass `x < 2^32`). -/
def rotl (n x : Nat) : Nat := w32 ((x <<< n) ||| (x >>> (32 - n)))

/-- Big-endian bytes of a 32-bit word. -/
def be32 (n : Nat) : List Nat :=
  [(n >>> 24) % 256, (n >>> 16) % 256, (n >>> 8) % 256, n % 256]

/-- Big-endian bytes of a 64-bit length field. -/
def be64 (n : Nat) : List Nat :=
  [(n >>> 56) % 256, (n >>> 48) % 256, (n >>> 40) % 256, (n >>> 32) % 256,
   (n >>> 24) % 256, (n >>> 16) % 256, (n >>> 8) % 256, n % 256]

/-- A big-endian 32-bit word from four bytes. -/
def beWord (a b c d : Nat) : Nat := a * 16777216 + b * 65536 + c * 256 + d

/-- Group a 64-byte block into sixteen big-endian words. -/
def toWords : List Nat → List Nat
  | a :: b :: c :: d :: rest => beWord a b c d :: toWords rest
  | _ => []

/-! ### SHA-1 (FIPS 180-1) -/

/-- Extend a 16-word schedule by `k` words:
`w[t] = rotl1 (w[t-3] xor w[t-8] xor w[t-14] xor w[t-16])`. -/
def sha1Extend (ws : List Nat) : Nat → List Nat
  | 0 => ws
  | k + 1 =>
    let prev := sha1Extend ws k
    let n := prev.length
    prev ++ [rotl 1 ((prev.getD (n - 3) 0) ^^^ (prev.getD (n - 8) 0) ^^^
                     (prev.getD (n - 14) 0) ^^^ (prev.getD (n - 16) 0))]

/-- The SHA-1 round function `f_t`. -/
def sha1F (t b c d : Nat) : Nat :=
  if t < 20 then (b &&& c) ||| ((b ^^^ 4294967295) &&& d)
  else if t < 40 then b ^^^ c ^^^ d
  else if t < 60 then (b &&& c) ||| (b &&& d) ||| (c &&& d)
  else b ^^^ c ^^^ d

/-- The SHA-1 round constant `K_t`. -/
def sha1K (t : Nat) : Nat :=
  if t < 20 then 1518500249
  else if t < 40 then 1859775393
  else if t < 60 then 2400959708
  else 3395469782

/-- One SHA-1 round on the five-word state. -/
def sha1Round (w : List Nat) (st : Nat × Nat × Nat × Nat × Nat) (t : Nat) :
    Nat × Nat × Nat × Nat × Nat :=
  let (a, b, c, d, e) := st
  (w32 (rotl 5 a + sha1F t b c d + e + sha1K t + w.getD t 0), a, rotl 30 b, c, d)

/-- Compress one 64-byte block into the running five-word state. -/
def sha1Compress (h : List Nat) (block : List Nat) : List Nat :=
  let w := sha1Extend (toWords block) 64
  let (a, b, c, d, e) :=
    (List.range 80).foldl (sha1Round w)
      (h.getD 0 0, h.getD 1 0, h.getD 2 0, h.getD 3 0, h.getD 4 0)
  [w32 (h.getD 0 0 + a), w32 (h.getD 1 0 + b), w32 (h.getD 2 0 + c),
   w32 (h.getD 3 0 + d), w32 (h.getD 4 0 + e)]

/-- SHA-1 message padding: `0x80`, zeros, then the 64-bit bit length. -/
def sha1Pad (msg : List Nat) : List Nat :=
  msg ++ 128 :: (List.replicate ((64 - (msg.length + 9) % 64) % 64) 0 ++ be64 (8 * msg.length))

/-- Split a byte list into 64-byte chunks (fuel-based structural recursion;
`fuel = l.length` always suffices since every step consumes at least one byte). -/
def chunks64Go : Nat → List Nat → List (List Nat)
  | 0, _ => []
  | _, [] => []
  | fuel + 1, l => l.take 64 :: chunks64Go fuel (l.drop 64)

/-- Split a byte list into 64-byte chunks. -/
def chunks64 (l : List Nat) : List (List Nat) := chunks64Go l.length l

/-- The SHA-1 digest (20 bytes) of a byte string. -/
def sha1 (msg : List Nat) : List Nat :=
  (((chunks64 (sha1Pad msg)).foldl sha1Compress
      [1732584193, 4023233417, 2562383102, 271733878, 3285377520]).map be32).flatten

/-! ### HMAC-SHA1 (RFC 2104), as produced by Go's `crypto/hmac` -/

/-- HMAC-SHA1 of `msg` under `key` (block size 64). -/
def hmacSha1 (key msg : List Nat) : List Nat :=
  let k1 := if 64 < key.length then sha1 key else key
  let k0 := k1 ++ List.replicate (64 - k1.length) 0
  sha1 ((k0.map fun b => b ^^^ 92) ++ sha1 ((k0.map fun b => b ^^^ 54) ++ msg))

/-- Lowercase hex encoding of a byte list, as Go's `hex.EncodeToString`
(returned here as the ASCII bytes of the hex string). -/
def hexBytes (bs : List Nat) : List Nat :=
  (bs.map fun b =>
    [(fun n => if n < 10 then 48 + n else 87 + n) (b / 16),
     (fun n => if n < 10 then 48 + n else 87 + n) (b % 16)]).flatten

/-- ASCII bytes of a string (all strings handled here are ASCII). -/
def asciiBytes (s : String) : List Nat := s.data.map Char.toNat

/-! ### `verifyWebhook` (readmesync/main.go lines 99-107) -/

/-- The `h.Write(body)` step of `verifyWebhook`, returning the finished
HMAC-SHA1 digest. Go's `hash.Hash.Write` is specified to never return an
error (`hash` package contract), so the step is total; the `Option` shape
mirrors the `(n int, err error)` return the Go code checks. -/
def hmacSha1Write (secret body : List Nat) : Option (List Nat) :=
  some (hmacSha1 secret body)

/-- The function `verifyWebhook(mac, body, secret)` from readmesync/main.go: computes
HMAC-SHA1 of the body under the secret, hex-encodes it, and compares with
`hmac.Equal` (constant-time, semantically byte-slice equality). `Except`
mirrors the Go `(bool, error)` pair: `.error` for the write-failure branch,
`.ok` for a completed comparison. -/
def verifyWebhook (mac body secret : List Nat) : Except Unit Bool :=
  match hmacSha1Write secret body with
  | none => Except.error ()
  | some digest => Except.ok (mac == hexBytes digest)

/-! ### `syncAll` (readmesync/main.go lines 73-97) -/

/-- Go map assignment `m[k] = v`: replace the binding if the key is present,
append it otherwise. -/
def mapInsert (m : List (String × List Nat)) (k : String) (v : List Nat) :
    List (String × List Nat) :=
  match m with
  | [] => [(k, v)]
  | (k', v') :: rest => if k' = k then (k, v) :: rest else (k', v') :: mapInsert rest k v

/-- Go map lookup `m[k]`. -/
def mapGet (m : List (String × List Nat)) (k : String) : Option (List Nat) :=
  match m with
  | [] => none
  | (k', v') :: rest => if k' = k then some v' else mapGet rest k

/-- The function `syncAll(repos, token)` from readmesync/main.go. The Go code launches one
goroutine per repo, each calling `pullReadme(r, token)`; a successful fetch
sends `{repo, body}` on a channel, a failed one logs and sends nothing; a
join goroutine closes the channel after all workers finish, and the main
goroutine drains the channel into a map. The drain order is the channel
arrival order, which is modelled here as launch order: for distinct repo
names the resulting map contents do not depend on the order, and for a
duplicated name the source's last-writer-wins outcome is matched. The
network fetch `pullReadme` is I/O and is passed in as an oracle mapping
`(repo, token)` to either the body bytes or an error message. -/
def syncAll (pullReadme : String → String → Except String (List Nat))
    (repos : List String) (token : String) : List (String × List Nat) :=
  repos.foldl (fun results repo =>
    match pullReadme repo token with
    | .error _ => results
    | .ok body => mapInsert results repo body) []

/-! ### `ServeHTTP` (readmesync/main.go lines 118-215) -/

/-- Go's `strings.Split(s, "/")` on the character list of `s`: cut at every
slash; `n` separators yield `n+1` pieces, so the empty string yields the
single piece `[]`. -/
def splitSlashChars : List Char → List (List Char)
  | [] => [[]]
  | ch :: rest =>
    if ch = '/' then [] :: splitSlashChars rest
    else match splitSlashChars rest with
      | [] => [[ch]]
      | piece :: pieces => (ch :: piece) :: pieces

/-- Go's `strings.Split(s, "/")` (line 165 calls it on the payload ref). -/
def splitSlash (s : String) : List String :=
  (splitSlashChars s.data).map fun l => { data := l }

/-- The decoded JSON payload, Go's `type request` (readmesync/main.go lines
109-116); the nested `Repository` struct is flattened into two fields. -/
structure request where
  ref : String
  repositoryName : String
  repositoryUrl : String
  repos : List String
deriving DecidableEq, Repr

/-- The configuration struct `env` (readmesync/main.go lines 36-44). -/
structure env where
  githubToken : String
  hookSecret : List Nat
  dir : String
  hugoCmd : String
  hugoConfig : String
  hugoSource : String
  hugoOutput : String
deriving DecidableEq, Repr

/-- The parts of an inbound `*http.Request` that `ServeHTTP` reads. A header
that is absent reads as the empty string (`http.Header.Get`), so the
signature header is its byte list, `[]` when absent; `bodyRead` is the
result of `ioutil.ReadAll(r.Body)`. -/
structure HTTPRequest where
  method : String
  eventHeader : String
  signatureHeader : List Nat
  bodyRead : Except Unit (List Nat)
deriving Repr

/-- Which terminal branch of `ServeHTTP` produced the response; one
constructor per `WriteHeader` site, in source order. -/
inductive Outcome where
  | methodNotAllowed   -- line 120: method ≠ POST
  | badEvent           -- line 126: event header not in {push, ping}
  | bodyReadError      -- line 132: body read failed
  | verifyComputeError -- line 138: verifyWebhook returned an error
  | badSignature       -- line 142: verifyWebhook returned false
  | pong               -- lines 147-148: ping acknowledged
  | badJSON            -- line 155: json.Unmarshal failed
  | bulkSyncAck        -- line 162: sync-all acknowledged
  | badRef             -- line 167: ref does not have exactly 3 segments
  | ignoredBranch      -- line 172: branch is not master
  | fetchFailed        -- line 178: single-repo pullReadme failed
  | writeFailed        -- lines 188/203: file create or template render failed
  | hugoFailed         -- line 210: hugo invocation failed
  | synced             -- line 214: full push sync completed
deriving DecidableEq, Repr

/-- The HTTP status each outcome writes (the `w.WriteHeader` argument). -/
def statusOf : Outcome → Nat
  | .methodNotAllowed => 405
  | .badEvent => 400
  | .bodyReadError => 500
  | .verifyComputeError => 500
  | .badSignature => 400
  | .pong => 200
  | .badJSON => 400
  | .bulkSyncAck => 200
  | .badRef => 400
  | .ignoredBranch => 200
  | .fetchFailed => 500
  | .writeFailed => 500
  | .hugoFailed => 500
  | .synced => 200

/-- The response body each outcome writes (only the ping path writes one). -/
def responseBodyOf : Outcome → String
  | .pong => "pong"
  | _ => ""

/-- The side effects `ServeHTTP` performed: repos for which a fetch was
started, output files whose write was attempted, and how many times the
hugo site generator was invoked. -/
structure Effects where
  fetches : List String
  writes : List String
  hugoRuns : Nat
deriving DecidableEq, Repr

/-- No side effects. -/
def noEffects : Effects := ⟨[], [], 0⟩

/-- The output path for one repo's content file,
`filepath.Join(e.hugoSource, e.dir, repo+".md")` (line 185). -/
def outputPath (e : env) (repo : String) : String :=
  e.hugoSource ++ "/" ++ e.dir ++ "/" ++ repo ++ ".md"

/-- The write loop of lines 184-206: create and template-render one file per
fetched readme, stopping at the first failure. `writeOk` is the I/O oracle
saying whether creating plus rendering the file at a path succeeds. Returns
the attempted paths in order and whether all succeeded. -/
def writeLoop (writeOk : String → Bool) : List String → List String × Bool
  | [] => ([], true)
  | p :: rest =>
    if writeOk p then
      let (ws, allOk) := writeLoop writeOk rest
      (p :: ws, allOk)
    else ([p], false)

/-- The method `env.ServeHTTP` (readmesync/main.go lines 118-215), with its I/O
collaborators passed in as oracles: `pullReadme` the network fetch,
`unmarshal` the `json.Unmarshal` of the body into `request`, `writeOk`
whether create-and-render succeeds for an output path, and `hugoRun` the
result of the hugo subprocess. The result is `none` when the handler
panics: the only panic site is the unchecked slice
`r.Header.Get("X-Hub-Signature")[5:]` on line 136, which is out of bounds
whenever the header is shorter than 5 bytes. Otherwise the result pairs
the responding branch with the side effects performed. -/
def serveHTTP (e : env) (pullReadme : String → String → Except String (List Nat))
    (unmarshal : List Nat → Option request) (writeOk : String → Bool)
    (hugoRun : Except String String) (r : HTTPRequest) : Option (Outcome × Effects) :=
  if r.method ≠ "POST" then some (.methodNotAllowed, noEffects)
  else if r.eventHeader ≠ "push" ∧ r.eventHeader ≠ "ping" then some (.badEvent, noEffects)
  else match r.bodyRead with
  | .error _ => some (.bodyReadError, noEffects)
  | .ok body =>
    if 5 ≤ r.signatureHeader.length then
      match verifyWebhook (r.signatureHeader.drop 5) body e.hookSecret with
      | .error _ => some (.verifyComputeError, noEffects)
      | .ok false => some (.badSignature, noEffects)
      | .ok true =>
        if r.eventHeader = "ping" then some (.pong, noEffects)
        else match unmarshal body with
        | none => some (.badJSON, noEffects)
        | some req =>
          if r.eventHeader = "sync-all" then
            -- the fetched readmes are dropped: this branch acknowledges
            -- without reaching the write stage (lines 160-163)
            let _readmes := syncAll pullReadme req.repos e.githubToken
            some (.bulkSyncAck, { fetches := req.repos, writes := [], hugoRuns := 0 })
          else
            let ref := splitSlash req.ref
            if ref.length ≠ 3 then some (.badRef, noEffects)
            else if ref.getD 2 "" ≠ "master" then some (.ignoredBranch, noEffects)
            else match pullReadme req.repositoryName e.githubToken with
            | .error _ =>
              some (.fetchFailed, { fetches := [req.repositoryName], writes := [], hugoRuns := 0 })
            | .ok _readme =>
              let fs := [req.repositoryName]
              let wres := writeLoop writeOk [outputPath e req.repositoryName]
              if wres.2 then
                match hugoRun with
                | .error _ => some (.hugoFailed, { fetches := fs, writes := wres.1, hugoRuns := 1 })
                | .ok _ => some (.synced, { fetches := fs, writes := wres.1, hugoRuns := 1 })
              else some (.writeFailed, { fetches := fs, writes := wres.1, hugoRuns := 0 })
    else none

/-- Whether the handler result is the server-error response of the
verification-fault branch (line 138). -/
def isVerifyComputeError : Option (Outcome × Effects) → Bool
  | some (.verifyComputeError, _) => true
  | _ => false

/-! ### Test fixture: a concrete environment and oracles -/

/-- A concrete webhook secret. -/
def secretBytes : List Nat := asciiBytes "s3cr3t"

/-- A concrete request body (the bytes of an ASCII JSON object). -/
def bodyBytes : List Nat := [123, 125]

/-- A well-formed signature header for a secret and body, as the `syncall`
client builds it: the `sha1=` tag followed by the lowercase hex HMAC. -/
def validSig (secret body : List Nat) : List Nat :=
  asciiBytes "sha1=" ++ hexBytes (hmacSha1 secret body)

/-- A concrete environment. -/
def testEnv : env :=
  { githubToken := "token", hookSecret := secretBytes, dir := "projects",
    hugoCmd := "hugo", hugoConfig := "config.toml", hugoSource := "site",
    hugoOutput := "public" }

/-- A concrete fetch oracle under which repo `b` fails and every other repo
returns the two bytes `RE`. -/
def fetchOracle : String → String → Except String (List Nat) :=
  fun r _ => if r = "b" then Except.error (r ++ ": non-200 status: 404 Not Found")
             else Except.ok [82, 69]

/-- A concrete JSON decoder yielding a bulk-sync payload listing `a` and `b`. -/
def decodeSyncAll : List Nat → Option request :=
  fun _ => some { ref := "", repositoryName := "", repositoryUrl := "", repos := ["a", "b"] }

/-- A concrete JSON decoder yielding a push payload for `foo` on master. -/
def decodePushMaster : List Nat → Option request :=
  fun _ => some { ref := "refs/heads/master", repositoryName := "foo",
                  repositoryUrl := "https://example.org/foo", repos := [] }

/-- Whether a fetch outcome is a success. -/
def isOkE : Except String (List Nat) → Bool
  | .ok _ => true
  | .error _ => false

/-- The map entry one `syncAll` worker contributes: the repo paired with its
body on success, nothing on failure. -/
def fetchEntry (pullReadme : String → String → Except String (List Nat))
    (token r : String) : Option (String × List Nat) :=
  match pullReadme r token with
  | .ok b => some (r, b)
  | .error _ => none

/-! ### Helper lemmas -/

/-- Dropping the length of a prefix from an appended list leaves the suffix. -/
theorem drop_length_append (l₁ l₂ : List Nat) : (l₁ ++ l₂).drop l₁.length = l₂ := by
  simp

/-- The function `verifyWebhook` computes the hex HMAC and compares. -/
theorem verifyWebhook_eq (mac body secret : List Nat) :
    verifyWebhook mac body secret = Except.ok (mac == hexBytes (hmacSha1 secret body)) := rfl

/-- Stripping the tag from a `validSig` header yields the hex digest. -/
theorem validSig_drop (secret body : List Nat) :
    (validSig secret body).drop 5 = hexBytes (hmacSha1 secret body) := by
  have h : (asciiBytes "sha1=").length = 5 := rfl
  rw [validSig, ← h, drop_length_append]

/-- A `validSig` header is at least 5 bytes long. -/
theorem validSig_length (secret body : List Nat) : 5 ≤ (validSig secret body).length := by
  rw [validSig, List.length_append, (show (asciiBytes "sha1=").length = 5 from rfl)]
  omega

/-- The compression function returns a five-word state. -/
theorem sha1Compress_length (h block : List Nat) : (sha1Compress h block).length = 5 := rfl

/-- Folding the compression function preserves the five-word state length. -/
theorem sha1_state_length (blocks : List (List Nat)) :
    ∀ h : List Nat, h.length = 5 → (blocks.foldl sha1Compress h).length = 5 := by
  induction blocks with
  | nil =>
    intro h hh
    simpa using hh
  | cons b t ih =>
    intro h _
    exact ih (sha1Compress h b) (sha1Compress_length h b)

/-- Flattening four-byte words yields four bytes per word. -/
theorem length_flatten_be32 (l : List Nat) : ((l.map be32).flatten).length = 4 * l.length := by
  induction l with
  | nil => rfl
  | cons x t ih =>
    simp only [List.map_cons, List.flatten_cons, List.length_append, ih, List.length_cons]
    simp [be32]
    omega

/-- A SHA-1 digest is 20 bytes. -/
theorem sha1_length (msg : List Nat) : (sha1 msg).length = 20 := by
  rw [sha1, length_flatten_be32,
    sha1_state_length (chunks64 (sha1Pad msg))
      [1732584193, 4023233417, 2562383102, 271733878, 3285377520] rfl]

/-- An HMAC-SHA1 digest is 20 bytes. -/
theorem hmacSha1_length (key msg : List Nat) : (hmacSha1 key msg).length = 20 :=
  sha1_length _

/-- Hex encoding doubles the length. -/
theorem hexBytes_length (bs : List Nat) : (hexBytes bs).length = 2 * bs.length := by
  induction bs with
  | nil => rfl
  | cons b t ih =>
    simp only [hexBytes, List.map_cons, List.flatten_cons, List.length_append,
      List.length_cons, List.length_nil] at ih ⊢
    omega

/-- No request makes the handler take the verification-fault 500 branch,
because `verifyWebhook` never returns an error. -/
theorem serveHTTP_verify_never_errors (e : env)
    (pullReadme : String → String → Except String (List Nat))
    (unmarshal : List Nat → Option request) (writeOk : String → Bool)
    (hugoRun : Except String String) (r : HTTPRequest) :
    isVerifyComputeError (serveHTTP e pullReadme unmarshal writeOk hugoRun r) = false := by
  simp only [serveHTTP]
  repeat' split
  all_goals simp_all [verifyWebhook_eq, isVerifyComputeError]

/-- Inserting an absent key appends it. -/
theorem mapInsert_of_notMem (m : List (String × List Nat)) (k : String) (v : List Nat)
    (h : k ∉ m.map Prod.fst) : mapInsert m k v = m ++ [(k, v)] := by
  induction m with
  | nil => rfl
  | cons hd t ih =>
    obtain ⟨k', v'⟩ := hd
    simp only [List.map_cons, List.mem_cons] at h
    push_neg at h
    simp only [mapInsert, if_neg (Ne.symm h.1), ih h.2, List.cons_append]

/-- Folding the per-repo insert over distinct repos, starting from a map
containing none of them, appends exactly the successful entries in order. -/
theorem foldl_syncAll_eq (pullReadme : String → String → Except String (List Nat))
    (token : String) (repos : List String) :
    ∀ m : List (String × List Nat), repos.Nodup →
      (∀ r ∈ repos, r ∉ m.map Prod.fst) →
      repos.foldl (fun results repo =>
        match pullReadme repo token with
        | .error _ => results
        | .ok body => mapInsert results repo body) m
      = m ++ repos.filterMap (fetchEntry pullReadme token) := by
  induction repos with
  | nil =>
    intro m _ _
    simp
  | cons r t ih =>
    intro m hnd hm
    have hndt : t.Nodup := (List.nodup_cons.mp hnd).2
    have hrt : r ∉ t := (List.nodup_cons.mp hnd).1
    simp only [List.foldl_cons, List.filterMap_cons]
    cases hpr : pullReadme r token with
    | error msg =>
      simp only []
      rw [ih m hndt (fun r' hr' => hm r' (List.mem_cons_of_mem r hr'))]
      simp [fetchEntry, hpr]
    | ok b =>
      have hnotm : ∀ r' ∈ t, r' ∉ (m ++ [(r, b)]).map Prod.fst := by
        intro r' hr'
        have h1 : r' ∉ m.map Prod.fst := hm r' (List.mem_cons_of_mem r hr')
        have h2 : r' ≠ r := fun hrr => hrt (hrr ▸ hr')
        simp [h1, h2]
      simp only []
      rw [mapInsert_of_notMem m r b (hm r (List.mem_cons_self r t)),
        ih (m ++ [(r, b)]) hndt hnotm]
      simp [fetchEntry, hpr]

/-- For distinct repos, `syncAll` is exactly the list of successful fetches
in launch order. -/
theorem syncAll_eq_filterMap (pullReadme : String → String → Except String (List Nat))
    (repos : List String) (token : String) (hnd : repos.Nodup) :
    syncAll pullReadme repos token = repos.filterMap (fetchEntry pullReadme token) := by
  have h := foldl_syncAll_eq pullReadme token repos [] hnd (by simp)
  simpa [syncAll] using h

/-- Successful entries plus failed repos account for the whole batch. -/
theorem length_filterMap_fetchEntry (pullReadme : String → String → Except String (List Nat))
    (token : String) (repos : List String) :
    (repos.filterMap (fetchEntry pullReadme token)).length
      + (repos.filter fun r => !(isOkE (pullReadme r token))).length = repos.length := by
  induction repos with
  | nil => rfl
  | cons r t ih =>
    cases hpr : pullReadme r token with
    | error msg =>
      rw [List.filterMap_cons_none (by simp [fetchEntry, hpr]),
        List.filter_cons_of_pos (by simp [isOkE, hpr]), List.length_cons, List.length_cons]
      omega
    | ok b =>
      rw [show (r :: t).filterMap (fetchEntry pullReadme token)
            = (r, b) :: t.filterMap (fetchEntry pullReadme token) from by
          simp [List.filterMap_cons, fetchEntry, hpr],
        List.filter_cons_of_neg (by simp [isOkE, hpr]), List.length_cons, List.length_cons]
      omega

/-- A repo outside the batch is absent from the successful entries. -/
theorem mapGet_filterMap_of_notMem (pullReadme : String → String → Except String (List Nat))
    (token : String) (repos : List String) (r : String) (h : r ∉ repos) :
    mapGet (repos.filterMap (fetchEntry pullReadme token)) r = none := by
  induction repos with
  | nil => rfl
  | cons r' t ih =>
    have h1 : r ∉ t := fun ht => h (List.mem_cons_of_mem r' ht)
    have h2 : r ≠ r' := fun hrr => h (hrr ▸ List.mem_cons_self r' t)
    cases hpr : pullReadme r' token with
    | error msg => simp [List.filterMap_cons, fetchEntry, hpr, ih h1]
    | ok b => simp [List.filterMap_cons, fetchEntry, hpr, mapGet, Ne.symm h2, ih h1]

/-- Looking up a batch member among the successful entries yields its body
when its fetch succeeded and nothing when it failed. -/
theorem mapGet_filterMap_mem (pullReadme : String → String → Except String (List Nat))
    (token : String) (r : String) :
    ∀ repos : List String, repos.Nodup → r ∈ repos →
      mapGet (repos.filterMap (fetchEntry pullReadme token)) r
        = match pullReadme r token with
          | .ok b => some b
          | .error _ => none := by
  intro repos
  induction repos with
  | nil =>
    intro _ hr
    cases hr
  | cons r' t ih =>
    intro hnd hr
    have hndt : t.Nodup := (List.nodup_cons.mp hnd).2
    have hr't : r' ∉ t := (List.nodup_cons.mp hnd).1
    rcases List.mem_cons.mp hr with rfl | hrt
    · cases hpr : pullReadme r token with
      | ok b => simp [List.filterMap_cons, fetchEntry, hpr, mapGet]
      | error msg =>
        simp only [List.filterMap_cons, fetchEntry, hpr]
        rw [mapGet_filterMap_of_notMem pullReadme token t r hr't]
    · have hne : r ≠ r' := fun hh => hr't (hh ▸ hrt)
      cases hpr' : pullReadme r' token with
      | error msg =>
        simp only [List.filterMap_cons, fetchEntry, hpr']
        exact ih hndt hrt
      | ok b =>
        simp only [List.filterMap_cons, fetchEntry, hpr', mapGet, if_neg (Ne.symm hne)]
        exact ih hndt hrt

/-- Looking up a batch member in the `syncAll` result yields its body when
its fetch succeeded and nothing when it failed. -/
theorem mapGet_syncAll (pullReadme : String → String → Except String (List Nat))
    (token : String) (repos : List String) (hnd : repos.Nodup) (r : String) (hr : r ∈ repos) :
    mapGet (syncAll pullReadme repos token) r
      = match pullReadme r token with
        | .ok b => some b
        | .error _ => none := by
  rw [syncAll_eq_filterMap pullReadme repos token hnd]
  exact mapGet_filterMap_mem pullReadme token r repos hnd hr

/-! ### Claims -/

/-- C1: the claim says a POST to `/hook` carrying the bulk-sync event
(`sync-all`) with a valid signature is classified as bulk-sync, fetches the
payload's repos via the aggregator, and responds 200 without writing files
or running the generator. The code instead rejects every `sync-all` request
with 400 at the event allowlist (lines 124-128 admit only `push` and
`ping`), before the body or the signature is even examined; the dedicated
`sync-all` branch at lines 159-163 is unreachable, and the repository's own
`syncall` client (syncall/main.go line 53) sends exactly this event, so the
code contradicts its own companion tool. This theorem evaluates the handler
on such a request: it answers 400 with no fetches, and the same request's
signature does verify against the secret, so authentication is not the
reason for the rejection. -/
theorem syncAll_event_rejected_despite_valid_signature :
    serveHTTP testEnv fetchOracle decodeSyncAll (fun _ => true) (Except.ok "")
      { method := "POST", eventHeader := "sync-all",
        signatureHeader := validSig secretBytes bodyBytes, bodyRead := Except.ok bodyBytes }
      = some (Outcome.badEvent, noEffects)
    ∧ statusOf Outcome.badEvent = 400
    ∧ verifyWebhook ((validSig secretBytes bodyBytes).drop 5) bodyBytes secretBytes
        = Except.ok true := by
  refine ⟨rfl, rfl, ?_⟩
  rw [verifyWebhook_eq, validSig_drop]
  simp

/-- C2: the claim says a request whose `X-Hub-Signature` header is malformed
(absent, shorter than 5 bytes, or lacking the `sha1=` tag) is rejected with
a client error before the verifier is invoked, the prefix strip never going
out of bounds. The code performs no such check: line 136 slices the header
unconditionally, so a POST with an accepted event type and an absent header
(which `Header.Get` reads as the empty string) makes `[5:]` an
out-of-bounds slice and the handler panics — modelled as `none` — instead
of answering with any HTTP status; and a 5-byte-or-longer header without
the `sha1=` tag is passed to the verifier rather than rejected before it. -/
theorem missing_signature_header_panics :
    serveHTTP testEnv fetchOracle decodeSyncAll (fun _ => true) (Except.ok "")
      { method := "POST", eventHeader := "ping",
        signatureHeader := [], bodyRead := Except.ok bodyBytes } = none := rfl

/-- C4: for every body and secret, verifying the genuine signature — the
hex-encoded HMAC-SHA1 of the body under the secret — succeeds, and
verifying any candidate that differs from it in at least one bit (indeed,
any unequal byte string) yields `false`. -/
theorem verify_roundtrip_and_mismatch :
    (∀ body secret : List Nat,
      verifyWebhook (hexBytes (hmacSha1 secret body)) body secret = Except.ok true)
    ∧ (∀ mac body secret : List Nat, mac ≠ hexBytes (hmacSha1 secret body) →
      verifyWebhook mac body secret = Except.ok false) := by
  constructor
  · intro body secret
    rw [verifyWebhook_eq]
    simp
  · intro mac body secret h
    rw [verifyWebhook_eq]
    simp [h]

/-- C8: `syncAll` applied to the empty resource list returns the empty
mapping. In the source, no worker goroutine is launched, `wg.Wait` returns
at once, the channel is closed, and the drain loop reads nothing; in the
model the fold over the empty list returns the empty map. -/
theorem syncAll_nil (pullReadme : String → String → Except String (List Nat)) (token : String) :
    syncAll pullReadme [] token = [] := rfl

/-- C10: the verifier's error branch is dead: `sha1`'s `Write` never fails
(the `hash.Hash` contract), so `verifyWebhook` always returns `.ok`, and no
request can make the handler answer with the verification-fault 500 of
line 138. -/
theorem verify_error_branch_unreachable :
    (∀ mac body secret : List Nat, (verifyWebhook mac body secret).isOk = true)
    ∧ (∀ (e : env) pullReadme unmarshal writeOk hugoRun r,
      isVerifyComputeError (serveHTTP e pullReadme unmarshal writeOk hugoRun r) = false) := by
  constructor
  · intro mac body secret
    rfl
  · intro e pullReadme unmarshal writeOk hugoRun r
    exact serveHTTP_verify_never_errors e pullReadme unmarshal writeOk hugoRun r

/-- C3: for a batch of distinct repo names, `syncAll` returns a mapping with
exactly one entry per successful fetch (so N−K entries when K of N fail):
each successfully fetched name maps to its fetched bytes and every failed
name is absent; the batch itself cannot fail, `syncAll` returning a plain
map rather than an error. -/
theorem syncAll_partial_failure_contract
    (pullReadme : String → String → Except String (List Nat))
    (repos : List String) (token : String) (hnd : repos.Nodup) :
    (syncAll pullReadme repos token).length
      + (repos.filter fun r => !(isOkE (pullReadme r token))).length = repos.length
    ∧ (∀ r ∈ repos, ∀ b, pullReadme r token = Except.ok b →
        mapGet (syncAll pullReadme repos token) r = some b)
    ∧ (∀ r ∈ repos, ∀ msg, pullReadme r token = Except.error msg →
        mapGet (syncAll pullReadme repos token) r = none) := by
  refine ⟨?_, ?_, ?_⟩
  · rw [syncAll_eq_filterMap pullReadme repos token hnd]
    exact length_filterMap_fetchEntry pullReadme token repos
  · intro r hr b hb
    rw [mapGet_syncAll pullReadme token repos hnd r hr, hb]
  · intro r hr msg hmsg
    rw [mapGet_syncAll pullReadme token repos hnd r hr, hmsg]

/-- Witness for C3 at a concrete batch: two distinct repos `a`, `b` under an
oracle failing exactly on `b`: one entry remains, `a` maps to its bytes and
`b` is absent. -/
theorem syncAll_partial_failure_contract_witness :
    (syncAll fetchOracle ["a", "b"] "token").length
      + ((["a", "b"] : List String).filter fun r => !(isOkE (fetchOracle r "token"))).length
      = (["a", "b"] : List String).length
    ∧ (∀ r ∈ (["a", "b"] : List String), ∀ b, fetchOracle r "token" = Except.ok b →
        mapGet (syncAll fetchOracle ["a", "b"] "token") r = some b)
    ∧ (∀ r ∈ (["a", "b"] : List String), ∀ msg, fetchOracle r "token" = Except.error msg →
        mapGet (syncAll fetchOracle ["a", "b"] "token") r = none) :=
  syncAll_partial_failure_contract fetchOracle ["a", "b"] "token" (by decide)

/-- C5: for an authenticated push event whose body decodes to `req`: a ref
that does not split at slashes into exactly 3 segments is answered 400; one
whose third segment is not `master` is answered 200 immediately with zero
fetches; one whose third segment is `master` makes the handler fetch
exactly once, for the payload's repository name (whether or not that fetch,
or the later write stage, succeeds). -/
theorem push_classification (e : env)
    (pullReadme : String → String → Except String (List Nat))
    (unmarshal : List Nat → Option request) (writeOk : String → Bool)
    (hugoRun : Except String String) (sig body : List Nat) (req : request)
    (hlen : 5 ≤ sig.length)
    (hsig : sig.drop 5 = hexBytes (hmacSha1 e.hookSecret body))
    (hdec : unmarshal body = some req) :
    ((splitSlash req.ref).length ≠ 3 →
      serveHTTP e pullReadme unmarshal writeOk hugoRun
        { method := "POST", eventHeader := "push", signatureHeader := sig,
          bodyRead := Except.ok body }
        = some (Outcome.badRef, noEffects) ∧ statusOf Outcome.badRef = 400)
    ∧ ((splitSlash req.ref).length = 3 → (splitSlash req.ref).getD 2 "" ≠ "master" →
      serveHTTP e pullReadme unmarshal writeOk hugoRun
        { method := "POST", eventHeader := "push", signatureHeader := sig,
          bodyRead := Except.ok body }
        = some (Outcome.ignoredBranch, noEffects)
      ∧ statusOf Outcome.ignoredBranch = 200 ∧ noEffects.fetches = [])
    ∧ ((splitSlash req.ref).length = 3 → (splitSlash req.ref).getD 2 "" = "master" →
      ∃ out eff, serveHTTP e pullReadme unmarshal writeOk hugoRun
        { method := "POST", eventHeader := "push", signatureHeader := sig,
          bodyRead := Except.ok body } = some (out, eff)
        ∧ eff.fetches = [req.repositoryName]) := by
  refine ⟨fun h3 => ⟨?_, rfl⟩, fun h3 hb => ⟨?_, rfl, rfl⟩, fun h3 hb => ?_⟩
  · simp [serveHTTP, verifyWebhook_eq, hlen, hsig, hdec, h3]
  · rw [List.getD_eq_getElem _ _ (by omega)] at hb
    simp [serveHTTP, verifyWebhook_eq, hlen, hsig, hdec, h3, hb]
  · rw [List.getD_eq_getElem _ _ (by omega)] at hb
    simp only [serveHTTP, verifyWebhook_eq, hsig, beq_self_eq_true, if_pos hlen]
    simp only [hdec]
    simp [h3, hb]
    cases hpr : pullReadme req.repositoryName e.githubToken with
    | error msg => refine ⟨_, _, rfl, rfl⟩
    | ok rb =>
      by_cases hw : writeOk (outputPath e req.repositoryName) = true
      all_goals simp only [writeLoop, hw]
      all_goals cases hugoRun
      all_goals refine ⟨_, _, rfl, rfl⟩

/-- Witness for C5 at a concrete request: a valid signature, body decoding
to a push of `foo` on `refs/heads/master`: exactly one fetch, for `foo`. -/
theorem push_classification_witness :
    ∃ out eff, serveHTTP testEnv fetchOracle decodePushMaster (fun _ => true) (Except.ok "")
      { method := "POST", eventHeader := "push",
        signatureHeader := validSig secretBytes bodyBytes,
        bodyRead := Except.ok bodyBytes } = some (out, eff)
      ∧ eff.fetches = ["foo"] := by
  have h := push_classification testEnv fetchOracle decodePushMaster (fun _ => true)
    (Except.ok "") (validSig secretBytes bodyBytes) bodyBytes
    { ref := "refs/heads/master", repositoryName := "foo",
      repositoryUrl := "https://example.org/foo", repos := [] }
    (validSig_length secretBytes bodyBytes) (validSig_drop secretBytes bodyBytes) rfl
  exact h.2.2 (by decide) (by decide)

/-- C6: the verifier answers a signature mismatch with `false` and no error,
and answers an error only when the digest write step fails; at the handler,
a false verdict is the client error 400 (`badSignature`, line 142), while
the server error 500 of the verification stage (line 138) can arise only
from a verifier error. -/
theorem verify_mismatch_is_client_error :
    (∀ mac body secret : List Nat, mac ≠ hexBytes (hmacSha1 secret body) →
      verifyWebhook mac body secret = Except.ok false)
    ∧ (∀ mac body secret : List Nat, ∀ err,
      verifyWebhook mac body secret = Except.error err → hmacSha1Write secret body = none)
    ∧ (∀ (e : env) (pullReadme : String → String → Except String (List Nat))
        (unmarshal : List Nat → Option request) (writeOk : String → Bool)
        (hugoRun : Except String String) (event : String) (sig body : List Nat),
      event = "push" ∨ event = "ping" → 5 ≤ sig.length →
      sig.drop 5 ≠ hexBytes (hmacSha1 e.hookSecret body) →
      serveHTTP e pullReadme unmarshal writeOk hugoRun
        { method := "POST", eventHeader := event, signatureHeader := sig,
          bodyRead := Except.ok body }
        = some (Outcome.badSignature, noEffects) ∧ statusOf Outcome.badSignature = 400)
    ∧ (∀ (e : env) pullReadme unmarshal writeOk hugoRun r eff,
      serveHTTP e pullReadme unmarshal writeOk hugoRun r
        = some (Outcome.verifyComputeError, eff) →
      ∃ body err, r.bodyRead = Except.ok body
        ∧ verifyWebhook (r.signatureHeader.drop 5) body e.hookSecret = Except.error err) := by
  refine ⟨?_, ?_, ?_, ?_⟩
  · intro mac body secret h
    rw [verifyWebhook_eq]
    simp [h]
  · intro mac body secret err h
    rw [verifyWebhook_eq] at h
    simp at h
  · intro e pullReadme unmarshal writeOk hugoRun event sig body hev hlen hne
    have hb : (sig.drop 5 == hexBytes (hmacSha1 e.hookSecret body)) = false := by
      simp [hne]
    rcases hev with rfl | rfl <;>
      exact ⟨by simp [serveHTTP, verifyWebhook_eq, hlen, hb], rfl⟩
  · intro e pullReadme unmarshal writeOk hugoRun r eff h
    have hh := serveHTTP_verify_never_errors e pullReadme unmarshal writeOk hugoRun r
    rw [h] at hh
    simp [isVerifyComputeError] at hh

/-- Witness for C6's handler clause at a concrete request: the too-short
candidate signature `sha1=0` (whose stripped remainder has 1 byte, never 40)
on a ping is answered 400, `badSignature`. -/
theorem verify_mismatch_is_client_error_witness :
    serveHTTP testEnv fetchOracle decodeSyncAll (fun _ => true) (Except.ok "")
      { method := "POST", eventHeader := "ping",
        signatureHeader := asciiBytes "sha1=0", bodyRead := Except.ok bodyBytes }
      = some (Outcome.badSignature, noEffects)
    ∧ statusOf Outcome.badSignature = 400 :=
  verify_mismatch_is_client_error.2.2.1 testEnv fetchOracle decodeSyncAll (fun _ => true)
    (Except.ok "") "ping" (asciiBytes "sha1=0") bodyBytes (Or.inr rfl) (by decide)
    (by
      intro h
      have hl := congrArg List.length h
      rw [hexBytes_length, hmacSha1_length,
        (show ((asciiBytes "sha1=0").drop 5).length = 1 from rfl)] at hl
      omega)

/-- C7: an authenticated ping — POST with event `ping` and a signature whose
tag-stripped remainder is the hex HMAC of the body — is answered 200 with
body `pong` and no further side effects: no fetches, no writes, no
generator run. -/
theorem ping_pong_no_side_effects (e : env)
    (pullReadme : String → String → Except String (List Nat))
    (unmarshal : List Nat → Option request) (writeOk : String → Bool)
    (hugoRun : Except String String) (sig body : List Nat)
    (hlen : 5 ≤ sig.length)
    (hsig : sig.drop 5 = hexBytes (hmacSha1 e.hookSecret body)) :
    serveHTTP e pullReadme unmarshal writeOk hugoRun
      { method := "POST", eventHeader := "ping", signatureHeader := sig,
        bodyRead := Except.ok body }
      = some (Outcome.pong, noEffects)
    ∧ statusOf Outcome.pong = 200 ∧ responseBodyOf Outcome.pong = "pong"
    ∧ noEffects.fetches = [] ∧ noEffects.writes = [] ∧ noEffects.hugoRuns = 0 := by
  refine ⟨?_, rfl, rfl, rfl, rfl, rfl⟩
  simp [serveHTTP, verifyWebhook_eq, hlen, hsig]

/-- Witness for C7 at a concrete authenticated ping request. -/
theorem ping_pong_no_side_effects_witness :
    serveHTTP testEnv fetchOracle decodeSyncAll (fun _ => true) (Except.ok "")
      { method := "POST", eventHeader := "ping",
        signatureHeader := validSig secretBytes bodyBytes,
        bodyRead := Except.ok bodyBytes }
      = some (Outcome.pong, noEffects)
    ∧ statusOf Outcome.pong = 200 ∧ responseBodyOf Outcome.pong = "pong"
    ∧ noEffects.fetches = [] ∧ noEffects.writes = [] ∧ noEffects.hugoRuns = 0 :=
  ping_pong_no_side_effects testEnv fetchOracle decodeSyncAll (fun _ => true) (Except.ok "")
    (validSig secretBytes bodyBytes) bodyBytes
    (validSig_length secretBytes bodyBytes) (validSig_drop secretBytes bodyBytes)

/-- C9: the ping path never consults the JSON decoder — an authenticated
ping is answered `pong` under every decoder and every body, valid JSON or
not — while an authenticated push whose body fails to decode is answered
400 (`badJSON`, line 155), and a `sync-all` request is likewise answered
with the client error 400, though at the event allowlist of line 126,
before the body is ever examined (see C1). -/
theorem ping_ignores_body_json :
    (∀ (e : env) (pullReadme : String → String → Except String (List Nat))
        (unmarshal : List Nat → Option request) (writeOk : String → Bool)
        (hugoRun : Except String String) (sig body : List Nat),
      5 ≤ sig.length → sig.drop 5 = hexBytes (hmacSha1 e.hookSecret body) →
      serveHTTP e pullReadme unmarshal writeOk hugoRun
        { method := "POST", eventHeader := "ping", signatureHeader := sig,
          bodyRead := Except.ok body }
        = some (Outcome.pong, noEffects))
    ∧ (∀ (e : env) (pullReadme : String → String → Except String (List Nat))
        (unmarshal : List Nat → Option request) (writeOk : String → Bool)
        (hugoRun : Except String String) (sig body : List Nat),
      5 ≤ sig.length → sig.drop 5 = hexBytes (hmacSha1 e.hookSecret body) →
      unmarshal body = none →
      serveHTTP e pullReadme unmarshal writeOk hugoRun
        { method := "POST", eventHeader := "push", signatureHeader := sig,
          bodyRead := Except.ok body }
        = some (Outcome.badJSON, noEffects) ∧ statusOf Outcome.badJSON = 400)
    ∧ (∀ (e : env) (pullReadme : String → String → Except String (List Nat))
        (unmarshal : List Nat → Option request) (writeOk : String → Bool)
        (hugoRun : Except String String) (sig : List Nat) (bodyRead : Except Unit (List Nat)),
      serveHTTP e pullReadme unmarshal writeOk hugoRun
        { method := "POST", eventHeader := "sync-all", signatureHeader := sig,
          bodyRead := bodyRead }
        = some (Outcome.badEvent, noEffects) ∧ statusOf Outcome.badEvent = 400) := by
  refine ⟨?_, ?_, ?_⟩
  · intro e pullReadme unmarshal writeOk hugoRun sig body hlen hsig
    simp [serveHTTP, verifyWebhook_eq, hlen, hsig]
  · intro e pullReadme unmarshal writeOk hugoRun sig body hlen hsig hdec
    exact ⟨by simp [serveHTTP, verifyWebhook_eq, hlen, hsig, hdec], rfl⟩
  · intro e pullReadme unmarshal writeOk hugoRun sig bodyRead
    exact ⟨by simp [serveHTTP], rfl⟩

set_option maxRecDepth 100000 in
/-- The SHA-1 embedding matches the FIPS 180-1 appendix test vector for
the message `abc`. -/
theorem sha1_fips_vector :
    hexBytes (sha1 (asciiBytes "abc"))
      = asciiBytes "a9993e364706816aba3e25717850c26c9cd0d89d" := by decide

set_option maxRecDepth 100000 in
/-- The HMAC-SHA1 embedding matches RFC 2202 test case 2 (key `Jefe`). -/
theorem hmacSha1_rfc2202_vector :
    hexBytes (hmacSha1 (asciiBytes "Jefe") (asciiBytes "what do ya want for nothing?"))
      = asciiBytes "effcdf6ae5eb2fa2d27416d5f184df9c259a7c79" := by decide

end Site
